import Mathlib

/-!
Verification of the tool-invocation subsystem of the Qwen3 interactive CLI
(`qwen3_interactive_cli.py`, class `Qwen3CLI`).

The Python source is shallowly embedded: every modelled definition is a direct
translation of the corresponding Python function, with machine-level facts
(list slicing, integer floor division, JSON round-trips, regex matching on
lowercased text, subprocess dispatch) made explicit.  Doc comments on each
definition cite the source lines they translate.
-/

set_option maxRecDepth 2000

/-- A conversation turn: the dict `{"role": role, "content": content}` appended
by `Qwen3CLI.add_to_history` (source lines 71-75). -/
structure Turn where
  role : String
  content : String
deriving DecidableEq, Repr

/-- `Qwen3CLI.add_to_history` (lines 71-75): append the turn, and when the
resulting length exceeds 100, keep only the trailing 80 entries
(`self.conversation_history = self.conversation_history[-80:]`).
Python's `l[-80:]` on a list of length `n ≥ 80` is `l.drop (n - 80)`. -/
def add_to_history (h : List Turn) (t : Turn) : List Turn :=
  let h2 := h ++ [t]
  if 100 < h2.length then h2.drop (h2.length - 80) else h2

/-- The history obtained by appending the turns of `ts`, in order, to an
initially empty conversation history (the state at CLI start-up). -/
def historyAfter (ts : List Turn) : List Turn :=
  List.foldl add_to_history [] ts

/-- Total character count of the history, as computed by
`Qwen3CLI.show_context_info` (line 237):
`total_chars = sum(len(msg['content']) for msg in self.conversation_history)`. -/
def total_chars (h : List Turn) : Nat :=
  (h.map (fun m => m.content.length)).sum

/-- Token estimate of `Qwen3CLI.show_context_info` (line 238):
`estimated_tokens = total_chars // 4` (Python floor division on naturals). -/
def estimated_tokens (h : List Turn) : Nat :=
  total_chars h / 4

/-- `self.max_context_tokens = 260000` (line 26). -/
def max_context_tokens : Nat := 260000

/-- The "Available" figure printed by `Qwen3CLI.show_context_info` (line 244):
`self.max_context_tokens - estimated_tokens`.  Both operands are Python `int`s,
so the subtraction is over the integers and may be negative. -/
def available_tokens (h : List Turn) : Int :=
  (max_context_tokens : Int) - (estimated_tokens h : Int)

/-! ### Session persistence (`save_session` / `load_session`, lines 52-69)

The session file holds the JSON document `{"history": [...]}` written by
`json.dump` and read back by `json.load`.  We model JSON values directly;
the textual serialisation performed by the `json` module is a bijection
between these values and their on-disk text. -/

/-- JSON values as produced by Python's `json` module. -/
inductive Json where
  | null : Json
  | bool (b : Bool) : Json
  | num (n : Int) : Json
  | str (s : String) : Json
  | arr (items : List Json) : Json
  | obj (fields : List (String × Json)) : Json

/-- Key lookup in a JSON object, as Python's `dict.__getitem__` / `dict.get`
on the dict produced by `json.load` (first binding wins; `json.load` keeps the
last duplicate key, but the documents written by this program have no
duplicate keys). -/
def jsonLookup : List (String × Json) → String → Option Json
  | [], _ => none
  | (k, v) :: rest, key => if k = key then some v else jsonLookup rest key

/-- The JSON encoding of one history entry: the dict
`{"role": ..., "content": ...}` stored in `self.conversation_history`. -/
def encodeTurn (t : Turn) : Json :=
  .obj [("role", .str t.role), ("content", .str t.content)]

/-- `Qwen3CLI.save_session` (lines 63-69): the JSON document written to the
session file is `{'history': self.conversation_history}`. -/
def save_session (h : List Turn) : Json :=
  .obj [("history", .arr (h.map encodeTurn))]

/-- Decode one history entry back into a `Turn`.  Every entry this program
ever writes has exactly the shape `{"role": <string>, "content": <string>}`;
a JSON value of any other shape is not representable as a `Turn` and decodes
to `none`. -/
def decodeTurn : Json → Option Turn
  | .obj fields =>
    match jsonLookup fields "role", jsonLookup fields "content" with
    | some (.str r), some (.str c) => some ⟨r, c⟩
    | _, _ => none
  | _ => none

/-- Decode a list of history entries; fails if any entry fails. -/
def decodeTurns : List Json → Option (List Turn)
  | [] => some []
  | j :: rest =>
    match decodeTurn j, decodeTurns rest with
    | some t, some ts => some (t :: ts)
    | _, _ => none

/-- `data.get('history', [])` (line 58) followed by interpretation of the
entries as turns.  A non-object document makes `data.get` raise
`AttributeError`, which line 60 catches; entries of a shape this program never
writes are likewise mapped to `none` (the source would store them untyped). -/
def historyFromJson : Json → Option (List Turn)
  | .obj fields =>
    match jsonLookup fields "history" with
    | some (.arr items) => decodeTurns items
    | some _ => none
    | none => some []
  | _ => none

/-- Result of `Qwen3CLI.load_session`: the conversation history afterwards and
whether the "Could not load session" warning (line 61) was printed. -/
structure LoadResult where
  history : List Turn
  warned : Bool
deriving DecidableEq, Repr

/-- `Qwen3CLI.load_session` (lines 52-61) acting on the current history.
`file` is the state of the session file: `none` when `os.path.exists` is
false (nothing happens), `some (.error e)` when `open`/`json.load` raises
(the `except` branch warns and leaves the history unchanged), and
`some (.ok j)` when the file parses to the JSON value `j`. -/
def load_session (current : List Turn) (file : Option (Except String Json)) :
    LoadResult :=
  match file with
  | none => ⟨current, false⟩
  | some (.error _) => ⟨current, true⟩
  | some (.ok j) =>
    match historyFromJson j with
    | some h => ⟨h, false⟩
    | none => ⟨current, true⟩

/-! ### Helper lemmas -/

theorem decodeTurn_encodeTurn (t : Turn) : decodeTurn (encodeTurn t) = some t := by
  cases t
  rfl

theorem decodeTurns_map_encodeTurn (h : List Turn) :
    decodeTurns (h.map encodeTurn) = some h := by
  induction h with
  | nil => rfl
  | cons t ts ih => simp [decodeTurns, decodeTurn_encodeTurn, ih]

theorem add_to_history_length_le (h : List Turn) (t : Turn) :
    (add_to_history h t).length ≤ 100 := by
  show (if 100 < (h ++ [t]).length then
      (h ++ [t]).drop ((h ++ [t]).length - 80) else h ++ [t]).length ≤ 100
  by_cases hc : 100 < (h ++ [t]).length
  · rw [if_pos hc, List.length_drop]
    omega
  · rw [if_neg hc]
    omega

theorem add_to_history_suffix (h : List Turn) (t : Turn) :
    (add_to_history h t) <:+ (h ++ [t]) := by
  show (if 100 < (h ++ [t]).length then
      (h ++ [t]).drop ((h ++ [t]).length - 80) else h ++ [t]) <:+ (h ++ [t])
  by_cases hc : 100 < (h ++ [t]).length
  · rw [if_pos hc]
    exact List.drop_suffix _ _
  · rw [if_neg hc]

theorem suffix_append_right {α : Type _} {a b : List α} (c : List α)
    (hab : a <:+ b) : (a ++ c) <:+ (b ++ c) := by
  obtain ⟨p, hp⟩ := hab
  exact ⟨p, by rw [← hp, List.append_assoc]⟩

theorem foldl_add_to_history_invariant (ts : List Turn) :
    ∀ init : List Turn, init.length ≤ 100 →
      (List.foldl add_to_history init ts).length ≤ 100 ∧
        (List.foldl add_to_history init ts) <:+ (init ++ ts) := by
  induction ts with
  | nil =>
    intro init hlen
    exact ⟨hlen, by simp⟩
  | cons t ts ih =>
    intro init hlen
    have hstep := add_to_history_length_le init t
    obtain ⟨ihlen, ihsfx⟩ := ih (add_to_history init t) hstep
    refine ⟨by simpa using ihlen, ?_⟩
    have h1 : (add_to_history init t) ++ ts <:+ (init ++ [t]) ++ ts :=
      suffix_append_right ts (add_to_history_suffix init t)
    have h2 : (init ++ [t]) ++ ts = init ++ (t :: ts) := by simp
    rw [h2] at h1
    exact List.IsSuffix.trans (by simpa using ihsfx) h1

/-! ### Claim C3 -/

/-- A sample turn used to exercise the history trim. -/
def turn0 : Turn := ⟨"user", "x"⟩

theorem add_to_history_no_trim (h : List Turn) (t : Turn)
    (hh : h.length ≤ 99) : add_to_history h t = h ++ [t] := by
  have hlen : ¬ 100 < (h ++ [t]).length := by simp; omega
  show (if 100 < (h ++ [t]).length then
      (h ++ [t]).drop ((h ++ [t]).length - 80) else h ++ [t]) = h ++ [t]
  rw [if_neg hlen]

theorem foldl_replicate_small (t : Turn) :
    ∀ n k : Nat, k + n ≤ 100 →
      List.foldl add_to_history (List.replicate k t) (List.replicate n t) =
        List.replicate (k + n) t := by
  intro n
  induction n with
  | zero => intro k _; simp
  | succ m ih =>
    intro k hk
    have hstep : add_to_history (List.replicate k t) t =
        List.replicate (k + 1) t := by
      rw [add_to_history_no_trim _ _ (by simp; omega)]
      simp [List.replicate_succ' (n := k)]
    calc List.foldl add_to_history (List.replicate k t)
            (List.replicate (m + 1) t)
        = List.foldl add_to_history
            (add_to_history (List.replicate k t) t) (List.replicate m t) := by
          rw [List.replicate_succ]; rfl
      _ = List.foldl add_to_history (List.replicate (k + 1) t)
            (List.replicate m t) := by rw [hstep]
      _ = List.replicate (k + 1 + m) t := ih (k + 1) (by omega)
      _ = List.replicate (k + (m + 1)) t := by ring_nf

theorem historyAfter_101 (t : Turn) :
    historyAfter (List.replicate 101 t) = List.replicate 80 t := by
  have hsplit : List.replicate 101 t = List.replicate 100 t ++ [t] := by
    rw [← List.replicate_succ' (n := 100)]
  rw [historyAfter, hsplit, List.foldl_append]
  have h0 := foldl_replicate_small t 100 0 (by omega)
  rw [show List.replicate 0 t = ([] : List Turn) from rfl, Nat.zero_add] at h0
  rw [h0]
  have hgt : 100 < (List.replicate 100 t ++ [t]).length := by simp
  show (if 100 < (List.replicate 100 t ++ [t]).length then
      (List.replicate 100 t ++ [t]).drop
        ((List.replicate 100 t ++ [t]).length - 80)
      else List.replicate 100 t ++ [t]) = List.replicate 80 t
  rw [if_pos hgt, ← hsplit]
  have hlen : (List.replicate 101 t).length = 101 := by simp
  rw [hlen]
  show (List.replicate 101 t).drop 21 = List.replicate 80 t
  rw [show (101 : Nat) = 21 + 80 from rfl, List.replicate_add]
  rw [show (21 : Nat) = (List.replicate 21 t).length from by simp]
  exact List.drop_left _ _

/-- C3 counterexample: appending 101 turns (exceeding the cap 100 checked at
line 74) leaves a history of length 80 — the code trims to the trailing 80
entries (line 75), not to the last 100 — so the retained turns are not the
last 100 appended turns. -/
theorem C3_counterexample :
    100 < (List.replicate 101 turn0).length ∧
      (historyAfter (List.replicate 101 turn0)).length = 80 ∧
      historyAfter (List.replicate 101 turn0) ≠
        (List.replicate 101 turn0).drop
          ((List.replicate 101 turn0).length - 100) := by
  have h80 := historyAfter_101 turn0
  refine ⟨by simp, by rw [h80]; simp, ?_⟩
  intro hEq
  have hlen : (historyAfter (List.replicate 101 turn0)).length =
      ((List.replicate 101 turn0).drop
        ((List.replicate 101 turn0).length - 100)).length := by rw [hEq]
  rw [h80] at hlen
  simp at hlen

/-- C3 (amended): for any sequence of appended turns, the history length never
exceeds 100 and the retained turns are a suffix of the appended sequence in
their original order (when the length would exceed 100, the code keeps the
trailing 80 entries, not the trailing 100). -/
theorem C3_amended (ts : List Turn) :
    (historyAfter ts).length ≤ 100 ∧ (historyAfter ts) <:+ ts := by
  have h := foldl_add_to_history_invariant ts [] (by simp)
  simpa [historyAfter] using h

/-! ### Claims C5 and C6 -/

/-- A turn whose content is long enough that the token estimate exceeds the
260000-token window: 1040004 characters, estimating to 260001 tokens. -/
def bigTurn : Turn := ⟨"user", String.mk (List.replicate 1040004 'a')⟩

theorem content_bigTurn :
    bigTurn.content = String.mk (List.replicate 1040004 'a') := rfl

theorem total_chars_bigTurn : total_chars [bigTurn] = 1040004 := by
  simp only [total_chars, List.map_cons, List.map_nil, List.sum_cons,
    List.sum_nil, content_bigTurn, String.length_mk, List.length_replicate,
    Nat.add_zero]

theorem estimated_tokens_bigTurn : estimated_tokens [bigTurn] = 260001 := by
  rw [estimated_tokens, total_chars_bigTurn]

/-- C5 counterexample: for a history whose token estimate (260001) exceeds the
window (260000), line 244 prints `self.max_context_tokens - estimated_tokens`
= −1: the reported remaining capacity is negative, so it is not floored at
zero. -/
theorem C5_counterexample :
    available_tokens [bigTurn] = -1 ∧ available_tokens [bigTurn] < 0 := by
  have h : available_tokens [bigTurn] = -1 := by
    rw [available_tokens, estimated_tokens_bigTurn, max_context_tokens]
    norm_num
  exact ⟨h, by rw [h]; norm_num⟩

/-- C5 (amended): the reported remaining capacity is the plain integer
difference `windowSize - estimateTokens(history)` with no floor, and it is
negative whenever the estimate exceeds the window size. -/
theorem C5_amended (h : List Turn) :
    available_tokens h = (max_context_tokens : Int) - (estimated_tokens h : Int) ∧
      (max_context_tokens < estimated_tokens h → available_tokens h < 0) := by
  refine ⟨rfl, fun hgt => ?_⟩
  rw [available_tokens]
  have : (max_context_tokens : Int) < (estimated_tokens h : Int) := by
    exact_mod_cast hgt
  omega

/-- C5 witness: the amended theorem applied to the concrete oversized history. -/
theorem C5_witness : available_tokens [bigTurn] < 0 :=
  (C5_amended [bigTurn]).2 (by rw [estimated_tokens_bigTurn, max_context_tokens]; norm_num)

/-- C6 counterexample: appending the non-empty turn with content "a" to the
empty history leaves `estimated_tokens` unchanged (0 = 1 / 4 with floor
division), so the estimate does not strictly increase. -/
theorem C6_counterexample :
    (Turn.mk "user" "a").content ≠ "" ∧
      estimated_tokens ([] ++ [Turn.mk "user" "a"]) = estimated_tokens [] := by
  refine ⟨by decide, ?_⟩
  rfl

theorem string_length_pos_of_ne_empty (s : String) (hs : s ≠ "") :
    0 < s.length := by
  cases s with
  | mk data =>
    cases data with
    | nil => exact absurd rfl hs
    | cons c cs => simp [String.length]

/-- C6 (amended): appending a non-empty turn strictly increases the total
character count, and the token estimate (character count floor-divided by 4)
is monotone but not strictly: it never decreases. -/
theorem C6_amended (h : List Turn) (t : Turn) (ht : t.content ≠ "") :
    total_chars h < total_chars (h ++ [t]) ∧
      estimated_tokens h ≤ estimated_tokens (h ++ [t]) := by
  have hchars : total_chars (h ++ [t]) = total_chars h + t.content.length := by
    simp [total_chars]
  have hpos : 0 < t.content.length := string_length_pos_of_ne_empty _ ht
  constructor
  · omega
  · rw [estimated_tokens, estimated_tokens]
    exact Nat.div_le_div_right (by omega)

/-- C6 witness: the amended theorem at a concrete history and turn. -/
theorem C6_witness :
    total_chars [] < total_chars ([] ++ [Turn.mk "user" "hello"]) ∧
      estimated_tokens [] ≤ estimated_tokens ([] ++ [Turn.mk "user" "hello"]) :=
  C6_amended [] (Turn.mk "user" "hello") (by decide)

/-! ### Claims C8 and C9 -/

/-- C8 (confirmed): saving a history to the session file and loading it into a
fresh session (empty current history) restores the identical ordered turn
sequence, with no warning. -/
theorem C8_roundtrip (h : List Turn) :
    load_session [] (some (.ok (save_session h))) = ⟨h, false⟩ := by
  have hdec : historyFromJson (save_session h) = some h := by
    simp [historyFromJson, save_session, jsonLookup,
      decodeTurns_map_encodeTurn h]
  simp [load_session, hdec]

/-- C9 (confirmed): when the session file exists but its content cannot be
parsed (`open`/`json.load` raises), `load_session` catches the exception
(line 60), prints the "Could not load session" warning (line 61), and the
fresh session's history stays empty — the process does not abort. -/
theorem C9_corrupt_session (msg : String) :
    load_session [] (some (.error msg)) = ⟨[], true⟩ := by
  rfl

/-! ### Calculator: `Qwen3CLI.solve_math` (lines 491-552)

`solve_math` first runs
`eval(expression, {"__builtins__": __builtins__}, {"math": math})` (line 504):
a full Python `eval` whose global scope exposes the complete builtins module
and whose local scope binds `math`.  On any exception it retries a bare
`eval(expression)` (line 512), whose calling frame additionally exposes the
module imports (`os`, `subprocess`, ...).  It then tries
`subprocess.run(['echo', expression, '|', 'bc', '-l'], shell=True)`
(lines 521-526); because a *list* is passed together with `shell=True`,
Python runs `sh -c 'echo'` with the remaining items as positional shell
parameters, so stdout is always the single newline printed by bare `echo`
and `result.stdout.strip()` is empty — this branch never returns.  Only then
does it delegate the expression to the language-model client (lines 534-550).

We embed the fragment of Python expression evaluation this function exposes:
the input string is represented by its parse result (`PyExpr`; strings that
are not valid Python expressions are `unparseable` and make every `eval`
raise `SyntaxError`).  Evaluation returns the value together with a flag
recording whether a host-access capability (`open`, `eval`, `exec`,
`compile`, `__import__`, `input`) was invoked. -/

/-- Values of the modelled Python fragment: integers, strings, modules,
callables reachable from the environment, and opaque objects (e.g. file
handles) returned by host-access builtins. -/
inductive PyVal where
  | int (n : Int)
  | str (s : String)
  | module (name : String)
  | builtinFn (name : String)
  | obj (descr : String)
deriving DecidableEq, Repr

/-- Parsed Python expressions (the fragment exercised by `solve_math`):
literals, names, attribute access, the arithmetic operators `+` `-` `*`,
unary function application, and a constructor for input strings that are not
valid Python expressions (every `eval` raises `SyntaxError` on them). -/
inductive PyExpr where
  | intLit (n : Int)
  | strLit (s : String)
  | name (x : String)
  | attr (e : PyExpr) (field : String)
  | add (a b : PyExpr)
  | subOp (a b : PyExpr)
  | mul (a b : PyExpr)
  | call (f : PyExpr) (arg : PyExpr)
  | unparseable (raw : String)
deriving DecidableEq, Repr

/-- Builtin names reachable through the `{"__builtins__": __builtins__}`
global scope passed at line 504: a representative subset of Python's
builtins module, including the host-access capabilities. -/
def builtinNames : List String :=
  ["abs", "len", "min", "max", "round", "int", "str",
   "open", "eval", "exec", "compile", "__import__", "input", "print"]

/-- The builtins that give the evaluated expression interpreter or
host-process access (file I/O, dynamic code execution, module import). -/
def hostAccessNames : List String :=
  ["open", "eval", "exec", "compile", "__import__", "input"]

/-- Application of a (unary) builtin: the modelled integer/string fragment.
Host-access builtins succeed and set the host-access flag; calls outside the
modelled fragment raise (evaluate to `none`). -/
def applyBuiltin (fn : String) (v : PyVal) : Option (PyVal × Bool) :=
  match fn, v with
  | "len", .str s => some (.int s.length, false)
  | "abs", .int n => some (.int (Int.natAbs n), false)
  | "__import__", .str m => some (.module m, true)
  | "open", .str p => some (.obj ("file:" ++ p), true)
  | "eval", .str src => some (.obj ("eval:" ++ src), true)
  | "exec", .str src => some (.obj ("exec:" ++ src), true)
  | "math.factorial", .int n =>
    if 0 ≤ n then some (.int (Nat.factorial n.toNat), false) else none
  | _, _ => none

/-- Name lookup in an evaluation environment (NameError when absent). -/
def envLookup : List (String × PyVal) → String → Option PyVal
  | [], _ => none
  | (k, v) :: rest, key => if k = key then some v else envLookup rest key

/-- The environment of the first `eval` (line 504): the full builtins plus
the local binding `math`. -/
def solveMathEnv1 : List (String × PyVal) :=
  builtinNames.map (fun n => (n, PyVal.builtinFn n)) ++ [("math", .module "math")]

/-- The environment of the bare `eval(expression)` (line 512): the calling
frame additionally exposes the module-level imports of the script and the
local variables of `solve_math`. -/
def solveMathEnv2 : List (String × PyVal) :=
  solveMathEnv1 ++
    [("os", .module "os"), ("sys", .module "sys"), ("json", .module "json"),
     ("subprocess", .module "subprocess"), ("re", .module "re"),
     ("requests", .module "requests"), ("openai", .module "openai"),
     ("time", .module "time")]

/-- Evaluation of the modelled Python fragment under an environment.
Returns `(value, hostAccess)` where `hostAccess` records whether a
host-access builtin was invoked, or `none` when Python would raise. -/
def evalPy (env : List (String × PyVal)) : PyExpr → Option (PyVal × Bool)
  | .intLit n => some (.int n, false)
  | .strLit s => some (.str s, false)
  | .name x => (envLookup env x).map (fun v => (v, false))
  | .attr e f =>
    match evalPy env e with
    | some (.module m, h) => some (.builtinFn (m ++ "." ++ f), h)
    | _ => none
  | .add a b =>
    match evalPy env a, evalPy env b with
    | some (.int x, ha), some (.int y, hb) => some (.int (x + y), ha || hb)
    | some (.str x, ha), some (.str y, hb) => some (.str (x ++ y), ha || hb)
    | _, _ => none
  | .subOp a b =>
    match evalPy env a, evalPy env b with
    | some (.int x, ha), some (.int y, hb) => some (.int (x - y), ha || hb)
    | _, _ => none
  | .mul a b =>
    match evalPy env a, evalPy env b with
    | some (.int x, ha), some (.int y, hb) => some (.int (x * y), ha || hb)
    | _, _ => none
  | .call f arg =>
    match evalPy env f, evalPy env arg with
    | some (.builtinFn fn, hf), some (v, ha) =>
      match applyBuiltin fn v with
      | some (r, hr) => some (r, hf || ha || hr)
      | none => none
    | _, _ => none
  | .unparseable _ => none

/-- Python `str.strip()` whitespace set. -/
def isPySpace (c : Char) : Bool :=
  c = ' ' || c = '\t' || c = '\n' || c = '\r' ||
    c = Char.ofNat 11 || c = Char.ofNat 12

/-- Python `str.strip()`: remove leading and trailing whitespace. -/
def pyStrip (s : List Char) : List Char :=
  ((s.dropWhile isPySpace).reverse.dropWhile isPySpace).reverse

/-- `pyStrip` on strings. -/
def pyStripStr (s : String) : String := String.mk (pyStrip s.data)

/-- The `bc` attempt (lines 519-531): `subprocess.run` with `shell=True` and
a list argument runs `sh -c 'echo'` (the expression becomes a positional
shell parameter), so stdout is `"\n"` and the return code is 0; the guard
`result.returncode == 0 and result.stdout.strip()` is falsy because the
stripped stdout is empty, so this branch never produces a result. -/
def bcAttempt (_e : PyExpr) : Option String :=
  let stdout := "\n"
  let returncode : Int := 0
  if returncode = 0 ∧ pyStripStr stdout ≠ "" then some (pyStripStr stdout)
  else none

/-- Outcome of `Qwen3CLI.solve_math`: a directly evaluated result (printed at
line 505 or 513, with the host-access flag of the evaluation), a `bc` result
(line 528, unreachable), or delegation of the expression to the
language-model client (lines 534-550). -/
inductive MathOutcome where
  | direct (v : PyVal) (hostAccess : Bool)
  | bcResult (out : String)
  | llmFallback (e : PyExpr)
deriving DecidableEq, Repr

/-- `Qwen3CLI.solve_math` (lines 491-552): try the full-builtins `eval`, then
the bare `eval`, then `bc`, and finally delegate to the language model. -/
def solve_math (e : PyExpr) : MathOutcome :=
  match evalPy solveMathEnv1 e with
  | some (v, h) => .direct v h
  | none =>
    match evalPy solveMathEnv2 e with
    | some (v, h) => .direct v h
    | none =>
      match bcAttempt e with
      | some out => .bcResult out
      | none => .llmFallback e

/-- Modelled from the spec (refinement target, not source code): the
"restricted arithmetic evaluation" the spec prescribes — "only numeric
literals and a whitelisted function/operator set".  An expression is
restricted when it is built from integer literals, the arithmetic operators,
and calls to whitelisted `math.*` functions. -/
def specRestrictedExpr : PyExpr → Bool
  | .intLit _ => true
  | .add a b => specRestrictedExpr a && specRestrictedExpr b
  | .subOp a b => specRestrictedExpr a && specRestrictedExpr b
  | .mul a b => specRestrictedExpr a && specRestrictedExpr b
  | .call (.attr (.name "math") _) arg => specRestrictedExpr arg
  | _ => false

/-- The parse of `"__import__('os')"`, an attacker-controlled expression far
outside any arithmetic whitelist. -/
def importOsExpr : PyExpr := .call (.name "__import__") (.strLit "os")

/-- The parse of `"2 + 2 * 10"`. -/
def twoPlusTwoTimesTenExpr : PyExpr :=
  .add (.intLit 2) (.mul (.intLit 2) (.intLit 10))

/-- The input `"integrate x^2"`, which is not a valid Python expression. -/
def integrateExpr : PyExpr := .unparseable "integrate x^2"

/-! ### Claim C1 -/

/-- C1 counterexample: the first evaluation attempt of `solve_math` is an
unrestricted `eval` with the full builtins in scope: the expression
`__import__('os')` — which contains no numeric literal and no whitelisted
arithmetic function — evaluates successfully at line 504, importing a module
into the host process (host access), and the language model is never
consulted.  The claimed restricted evaluation would reject it. -/
theorem C1_counterexample :
    solve_math importOsExpr = .direct (.module "os") true ∧
      specRestrictedExpr importOsExpr = false := by
  constructor
  · rfl
  · rfl

/-- C1 (amended): `solve_math` first attempts *unrestricted* evaluation of
the expression — a Python `eval` with the full builtins (including the
host-access capabilities `open`, `eval`, `exec`, `__import__`) and the
`math` module in scope, then a bare `eval` with even more names in scope —
and only when both evaluations raise (the `bc` attempt never yields output)
does it fall back to delegating the expression to the language-model
client. -/
theorem C1_amended (e : PyExpr) :
    (∀ v h, evalPy solveMathEnv1 e = some (v, h) → solve_math e = .direct v h) ∧
      (evalPy solveMathEnv1 e = none → evalPy solveMathEnv2 e = none →
        solve_math e = .llmFallback e) := by
  constructor
  · intro v h hv
    rw [solve_math, hv]
  · intro h1 h2
    rw [solve_math, h1, h2]
    rfl

/-- C1 witness: `"2 + 2 * 10"` evaluates directly to 22 without the language
model, and `"integrate x^2"` (no evaluable form) is delegated to the
language model. -/
theorem C1_witness :
    solve_math twoPlusTwoTimesTenExpr = .direct (.int 22) false ∧
      solve_math integrateExpr = .llmFallback integrateExpr := by
  constructor
  · exact (C1_amended twoPlusTwoTimesTenExpr).1 (.int 22) false (by decide)
  · exact (C1_amended integrateExpr).2 (by decide) (by decide)

/-! ### Code runner: `Qwen3CLI.execute_code` (lines 554-677)

Branches of the source:
* `python` (lines 562-595): write the source to a fresh
  `tempfile.NamedTemporaryFile`, run `['python3', temp_file]` with
  `subprocess.run(capture_output=True, text=True, cwd=os.getcwd())` — **no
  `timeout` argument** — and delete the temporary file in a `finally` block.
* `bash`/`shell`/`sh` (lines 597-618): run the source text itself as the
  shell command, `subprocess.run(code, shell=True, executable='/bin/bash')` —
  no temporary file, no timeout.
* `javascript`/`js` (lines 620-639): run `['node', '-e', code]` — the source
  is a command-line argument; no temporary file, no timeout.
* the `interpreters` table (lines 645-654): `java`, `cpp`, `c`, `go`,
  `rust`, `ruby`, `perl`, `php` run `interpreters[lang] + [code]` — the
  source text is appended as a command-line argument; no temporary file, no
  timeout.
* any other language (line 674): prints "execution not configured", runs
  nothing.

`subprocess.run` without a `timeout` argument waits for the child
indefinitely; we model the child by its wall-clock runtime and outputs, and
`subprocess.run` by the outcome it produces for that child. -/

/-- Behaviour of the spawned child process: how long it runs and what it
produces when allowed to finish. -/
structure ChildBehavior where
  runtime : Nat
  out : String
  err : String
  exitCode : Int
deriving DecidableEq, Repr

/-- Outcome of one `subprocess.run` call: normal completion with captured
stdout/stderr/exit code, or a `subprocess.TimeoutExpired` abort (only
possible when a `timeout` argument was supplied and exceeded). -/
inductive RunOutcome where
  | completed (stdout stderr : String) (exitCode : Int)
  | timedOut
deriving DecidableEq, Repr

/-- `subprocess.run`: with `timeout=some t` the call raises after `t`
seconds if the child is still running; with no `timeout` (as everywhere in
`execute_code`) it waits for the child no matter how long it runs. -/
def subprocessRun (timeout : Option Nat) (child : ChildBehavior) : RunOutcome :=
  match timeout with
  | some t => if t < child.runtime then .timedOut
              else .completed child.out child.err child.exitCode
  | none => .completed child.out child.err child.exitCode

/-- How the source text reaches the interpreter/compiler child process. -/
inductive Delivery where
  | tempFile
  | stdinPipe
  | argv
  | shellString
deriving DecidableEq, Repr

/-- Observable trace of one `execute_code` call: how the code was delivered
(`none` when the language is unsupported and nothing runs), whether a
temporary file was created and whether it was deleted by the time the call
returns, and the subprocess outcome (`none` when nothing runs). -/
structure ExecTrace where
  delivery : Option Delivery
  tempFileCreated : Bool
  tempFileDeleted : Bool
  outcome : Option RunOutcome
deriving DecidableEq, Repr

/-- Python `str.lower()` restricted to the ASCII range used here. -/
def lowerStr (s : String) : String := String.mk (s.data.map Char.toLower)

/-- The `interpreters` dispatch table (lines 645-654). -/
def interpreters : List (String × List String) :=
  [("java", ["java"]), ("cpp", ["g++"]), ("c", ["gcc"]),
   ("go", ["go", "run"]), ("rust", ["cargo", "run"]), ("ruby", ["ruby"]),
   ("perl", ["perl"]), ("php", ["php"])]

/-- `Qwen3CLI.execute_code` (lines 554-677). -/
def execute_code (language : String) (code : String) (child : ChildBehavior) :
    ExecTrace :=
  if lowerStr language = "python" then
    { delivery := some .tempFile, tempFileCreated := true,
      tempFileDeleted := true,
      outcome := some (subprocessRun none child) }
  else if lowerStr language ∈ ["bash", "shell", "sh"] then
    { delivery := some .shellString, tempFileCreated := false,
      tempFileDeleted := false,
      outcome := some (subprocessRun none child) }
  else if lowerStr language ∈ ["javascript", "js"] then
    { delivery := some .argv, tempFileCreated := false,
      tempFileDeleted := false,
      outcome := some (subprocessRun none child) }
  else
    match (interpreters.find? (fun p => p.1 = lowerStr language)) with
    | some _ =>
      { delivery := some .argv, tempFileCreated := false,
        tempFileDeleted := false,
        outcome := some (subprocessRun none child) }
    | none =>
      { delivery := none, tempFileCreated := false, tempFileDeleted := false,
        outcome := none }

/-! ### Claim C2 -/

/-- C2 counterexample: there is no wall-clock timeout for which
`execute_code` aborts a long-running child: no `timeout` argument is ever
passed to `subprocess.run` (lines 574-579), so for every candidate timeout
`t` a child that runs for `t + 1` seconds still completes normally and the
call never returns an `ExecutionTimeout` outcome.  (The help text, line 118,
advertises "No artificial limitations or timeouts".) -/
theorem C2_counterexample :
    ¬ ∃ t : Nat, ∀ (code : String) (child : ChildBehavior),
        t < child.runtime →
          (execute_code "python" code child).outcome = some .timedOut := by
  rintro ⟨t, h⟩
  have hc := h "import time; time.sleep(10**9)"
      ⟨t + 1, "", "", 0⟩ (Nat.lt_succ_self t)
  have hn : (execute_code "python" "import time; time.sleep(10**9)"
      ⟨t + 1, "", "", 0⟩).outcome = some (.completed "" "" 0) := rfl
  rw [hn] at hc
  simp at hc

/-- C2 (amended): `execute_code` imposes no timeout at all: for every child
runtime the call waits for the child to exit and returns its captured
stdout/stderr/exit code (so after the call the child is indeed no longer
running, but only because the call blocks until it finishes); the python
branch's temporary file is created and deleted on every exit path.  There is
no `ExecutionTimeout` outcome. -/
theorem C2_amended (code : String) (child : ChildBehavior) :
    (execute_code "python" code child).outcome =
        some (.completed child.out child.err child.exitCode) ∧
      (execute_code "python" code child).tempFileCreated = true ∧
      (execute_code "python" code child).tempFileDeleted = true ∧
      (execute_code "python" code child).outcome ≠ some .timedOut := by
  refine ⟨rfl, rfl, rfl, ?_⟩
  intro hEq
  have : some (RunOutcome.completed child.out child.err child.exitCode) =
      some RunOutcome.timedOut := hEq
  simp at this

/-! ### Claim C7 -/

/-- A sample child used to exercise the dispatch branches. -/
def childSample : ChildBehavior := ⟨1, "out", "", 0⟩

/-- C7 counterexample: `javascript` is a supported language of the code
runner, but its source is delivered as a command-line argument
(`['node', '-e', code]`, line 625), not via a temporary file or stdin, and
no temporary artifact is involved at all; likewise `ruby`, an entry of the
literal `interpreters` dispatch table, gets its source appended to the argv
(`['ruby', code]`, lines 651 and 659). -/
theorem C7_counterexample :
    (execute_code "javascript" "console.log(1)" childSample).delivery =
        some .argv ∧
      (execute_code "javascript" "console.log(1)" childSample).delivery ≠
        some .tempFile ∧
      (execute_code "javascript" "console.log(1)" childSample).delivery ≠
        some .stdinPipe ∧
      (execute_code "ruby" "puts 1" childSample).delivery = some .argv ∧
      (execute_code "ruby" "puts 1" childSample).delivery ≠
        some .tempFile ∧
      (execute_code "ruby" "puts 1" childSample).delivery ≠
        some .stdinPipe := by
  refine ⟨rfl, by decide, by decide, rfl, by decide, by decide⟩

/-- C7 (amended): only the `python` branch writes the source to a freshly
created temporary file (and deletes it on every exit path); the
`bash`/`shell`/`sh` branch runs the source text itself as a shell command;
`javascript`/`js` and every language of the `interpreters` table pass the
source text as a command-line argument; stdin is never used for any
language. -/
theorem C7_amended (code : String) (child : ChildBehavior) :
    (execute_code "python" code child).delivery = some .tempFile ∧
      (execute_code "python" code child).tempFileCreated = true ∧
      (execute_code "python" code child).tempFileDeleted = true ∧
      (execute_code "bash" code child).delivery = some .shellString ∧
      (execute_code "shell" code child).delivery = some .shellString ∧
      (execute_code "sh" code child).delivery = some .shellString ∧
      (execute_code "javascript" code child).delivery = some .argv ∧
      (execute_code "js" code child).delivery = some .argv ∧
      (execute_code "java" code child).delivery = some .argv ∧
      (execute_code "cpp" code child).delivery = some .argv ∧
      (execute_code "c" code child).delivery = some .argv ∧
      (execute_code "go" code child).delivery = some .argv ∧
      (execute_code "rust" code child).delivery = some .argv ∧
      (execute_code "ruby" code child).delivery = some .argv ∧
      (execute_code "perl" code child).delivery = some .argv ∧
      (execute_code "php" code child).delivery = some .argv ∧
      (∀ language : String,
        (execute_code language code child).delivery ≠ some .stdinPipe) := by
  refine ⟨rfl, rfl, rfl, rfl, rfl, rfl, rfl, rfl, rfl, rfl, rfl, rfl, rfl,
    rfl, rfl, rfl, ?_⟩
  intro language
  rw [execute_code]
  by_cases h1 : lowerStr language = "python"
  · rw [if_pos h1]
    simp
  · rw [if_neg h1]
    by_cases h2 : lowerStr language ∈ ["bash", "shell", "sh"]
    · rw [if_pos h2]
      simp
    · rw [if_neg h2]
      by_cases h3 : lowerStr language ∈ ["javascript", "js"]
      · rw [if_pos h3]
        simp
      · rw [if_neg h3]
        cases interpreters.find? (fun p => p.1 = lowerStr language) with
        | none => simp
        | some p => simp

/-! ### Intent detector: `Qwen3CLI.detect_and_execute_tools` (lines 779-913)

The source lowercases both texts (`ai_response.lower()`, `user_input.lower()`)
and probes them with `re.search` against fixed pattern lists; the branch
chain is `if search ... elif math ... elif code ... elif translate`, so at
most one tool fires per turn.  We embed the exact regexes used.  Python
regex facts made explicit below: `re.search` scans every start position
(leftmost match wins); `.` matches any character except a newline; an
alternation tries its alternatives left to right at each position. -/

/-- Occurrence of the literal `pat` anywhere in `s`
(a pure-alternation regex such as `let me search|searching for` is a
disjunction of these). -/
def hasSub (pat : List Char) : List Char → Bool
  | [] => pat.isPrefixOf ([] : List Char)
  | c :: rest => pat.isPrefixOf (c :: rest) || hasSub pat rest

/-- Scan every start position for the literal `pat`; on a match, run the
continuation `k` on the remainder (re.search's implicit leading scan, which
may cross newlines). -/
def scanThen (pat : List Char) (k : List Char → Bool) : List Char → Bool
  | [] => pat.isPrefixOf ([] : List Char) && k []
  | c :: rest =>
    (pat.isPrefixOf (c :: rest) && k (List.drop pat.length (c :: rest))) ||
      scanThen pat k rest

/-- A `.*` gap followed by the literal `pat` followed by `k`: `pat` must be
reachable through characters none of which is a newline (`.` does not match
`\n`). -/
def reachThen (pat : List Char) (k : List Char → Bool) : List Char → Bool
  | [] => pat.isPrefixOf ([] : List Char) && k []
  | c :: rest =>
    (pat.isPrefixOf (c :: rest) && k (List.drop pat.length (c :: rest))) ||
      (c != '\n' && reachThen pat k rest)

/-- A `.*` gap followed by a `\d` digit. -/
def reachDigit : List Char → Bool
  | [] => false
  | c :: rest => c.isDigit || (c != '\n' && reachDigit rest)

/-- The regex `a.*b`. -/
def dotStar2 (a b : String) (s : List Char) : Bool :=
  scanThen a.data (reachThen b.data (fun _ => true)) s

/-- The regex `a.*b.*c`. -/
def dotStar3 (a b c : String) (s : List Char) : Bool :=
  scanThen a.data (reachThen b.data (reachThen c.data (fun _ => true))) s

/-- The regex `a.*b.*c.*d`. -/
def dotStar4 (a b c d : String) (s : List Char) : Bool :=
  scanThen a.data
    (reachThen b.data (reachThen c.data (reachThen d.data (fun _ => true)))) s

/-- The regex `a.*b.*\d`. -/
def dotStarDigit (a b : String) (s : List Char) : Bool :=
  scanThen a.data (reachThen b.data reachDigit) s

/-- Any of the literal alternatives occurs in `s`. -/
def hasAnyLit (lits : List String) (s : List Char) : Bool :=
  lits.any (fun l => hasSub l.data s)

/-- `search_patterns` (lines 788-792), evaluated on lowercased text. -/
def searchPatterns (s : List Char) : Bool :=
  hasAnyLit ["let me search", "let me look up", "let me find",
    "searching for", "looking up"] s ||
  (dotStar2 "latest" "news" s || dotStar2 "current" "information" s ||
    dotStar2 "recent" "developments" s) ||
  (dotStar2 "what" "happening" s || dotStar2 "what" "new" s ||
    dotStar2 "latest" "research" s)

/-- `math_patterns` (lines 795-799), evaluated on lowercased text. -/
def mathPatterns (s : List Char) : Bool :=
  hasAnyLit ["let me calculate", "let me solve", "let me compute",
    "calculating", "solving"] s ||
  (dotStarDigit "what" "is" s || hasSub "how much".data s ||
    hasSub "calculate".data s || dotStar2 "solve" "equation" s) ||
  (s.any (fun c => ['+', '-', '*', '/', '^'].contains c) ||
    hasSub "sqrt".data s || hasSub "factorial".data s)

/-- `code_patterns` (lines 802-806), evaluated on lowercased text. -/
def codePatterns (s : List Char) : Bool :=
  hasAnyLit ["let me execute", "let me run", "let me test",
    "executing", "running"] s ||
  (dotStar2 "code" "execution" s || dotStar2 "test" "code" s ||
    dotStar2 "run" "program" s) ||
  (dotStar2 "python" "code" s || dotStar2 "javascript" "code" s ||
    dotStar2 "execute" "code" s)

/-- `translate_patterns` (lines 809-813), evaluated on lowercased text. -/
def translatePatterns (s : List Char) : Bool :=
  (hasSub "let me translate".data s || hasSub "translating to".data s ||
    dotStar2 "translate" "to" s) ||
  (dotStar2 "in" "spanish" s || dotStar2 "in" "french" s ||
    dotStar2 "in" "german" s || dotStar2 "in" "italian" s) ||
  (dotStar3 "how" "say" "in" s || dotStar4 "what" "is" "in" "language" s)

/-- `file_patterns` (lines 816-820): defined in the source but never
consulted by the branch chain below — the detector has no file branch. -/
def filePatterns (s : List Char) : Bool :=
  (hasAnyLit ["let me read", "let me open"] s || dotStar2 "reading" "file" s ||
    dotStar2 "opening" "file" s) ||
  (hasAnyLit ["let me write", "let me save"] s || dotStar2 "writing" "file" s ||
    dotStar2 "saving" "file" s) ||
  (dotStar2 "check" "file" s || dotStar2 "analyze" "file" s ||
    dotStar2 "read" "content" s)

/-- Python `s.lower()` as a character list (ASCII case folding). -/
def lcChars (s : String) : List Char := s.data.map Char.toLower

/-- Case-insensitive prefix match: `pat` is given lowercase, characters of
the subject are folded (the `re.IGNORECASE` regexes below run on the
original-case text). -/
def ciStarts : List Char → List Char → Bool
  | [], _ => true
  | _ :: _, [] => false
  | p :: ps, c :: cs => (p == Char.toLower c) && ciStarts ps cs

/-- One tool invocation produced by the detector, with the arguments the
source extracts before calling `web_search` / `solve_math` / `execute_code` /
`translate_text`. -/
inductive ToolInvocation where
  | search (query : String)
  | math (expression : String)
  | code (language : String) (source : String)
  | translate (targetLang : String) (text : String)
deriving DecidableEq, Repr

/-- The words whose presence in the lowercased user input triggers query
cleanup (line 827). -/
def searchTriggerWords : List String :=
  ["search", "find", "look up", "news", "information"]

/-- The alternatives of the cleanup regex
`(search|find|look up|for|about|latest|current|recent)` (line 829), in
alternation order. -/
def searchSubAlts : List (List Char) :=
  (["search", "find", "look up", "for", "about", "latest", "current",
    "recent"]).map String.data

/-- Worker for `subAltsCI`, structurally recursive on a fuel bound so that
it reduces definitionally; every step consumes at least one character, so
`fuel = s.length` never runs out. -/
def subAltsCIAux (alts : List (List Char)) : Nat → List Char → List Char
  | _, [] => []
  | 0, s => s
  | fuel + 1, c :: rest =>
    match alts.find? (fun a => ciStarts a (c :: rest)) with
    | some a => subAltsCIAux alts fuel (List.drop (a.length - 1) rest)
    | none => c :: subAltsCIAux alts fuel rest

/-- `re.sub(alts, '', s, flags=IGNORECASE)` for an alternation of literals:
scan left to right; at each position remove the first alternative (in
alternation order) that matches, else keep the character. -/
def subAltsCI (alts : List (List Char)) (s : List Char) : List Char :=
  subAltsCIAux alts s.length s

/-- Query extraction of the search branch (lines 826-830): start from the
raw user input; when the lowercased input contains a trigger word, strip the
search-related words case-insensitively and strip whitespace. -/
def searchQueryOf (userInput : String) : String :=
  if searchTriggerWords.any (fun w => hasSub w.data (lcChars userInput)) then
    String.mk (pyStrip (subAltsCI searchSubAlts userInput.data))
  else userInput

/-- The search branch body (lines 825-832): invoke `web_search` only when
the extracted query is non-empty (`if query:`). -/
def searchInvocation (userInput : String) : Option ToolInvocation :=
  let query := searchQueryOf userInput
  if query ≠ "" then some (.search query) else none

/-- The regex `([^?]*)\?$` (line 839): the subject must end with `?`
(`$` also matches just before one final trailing newline); the group is the
maximal run of non-`?` characters immediately before that `?` (leftmost
match makes the greedy `[^?]*` start right after the previous `?` or at the
start). -/
def qmarkExtract (s : List Char) : Option (List Char) :=
  let r := s.reverse
  let r1 := match r with
    | '\n' :: t => t
    | _ => r
  match r1 with
  | '?' :: t => some ((t.takeWhile (fun c => c != '?')).reverse)
  | _ => none

/-- `\s+` followed by the (lowercase, matched case-insensitively) literal
`lit`: the greedy whitespace run is safe to take maximally because `lit`
does not begin with whitespace.  Returns the remainder after `lit`. -/
def wsPlusLit (lit : List Char) (s : List Char) : Option (List Char) :=
  let w := s.takeWhile isPySpace
  if w.isEmpty then none
  else
    let r := s.drop w.length
    if ciStarts lit r then some (r.drop lit.length) else none

/-- `\s+([^\?]+)`: at least one whitespace character, then a non-empty
greedy group of non-`?` characters.  When everything after the whitespace
run starts with `?` (or nothing follows), the regex backtracks one
whitespace character into the group. -/
def wsPlusGroupNoQ (s : List Char) : Option (List Char) :=
  let w := s.takeWhile isPySpace
  let r := s.drop w.length
  if w.isEmpty then none
  else
    match r with
    | c :: _ =>
      if c != '?' then some (r.takeWhile (fun x => x != '?'))
      else if 2 ≤ w.length then some [w.getLastD ' '] else none
    | [] => if 2 ≤ w.length then some [w.getLastD ' '] else none

/-- Try `what\s+is\s+([^\?]+)` (line 841, IGNORECASE) at this position. -/
def matchWhatIs (s : List Char) : Option (List Char) :=
  if ciStarts "what".data s then
    match wsPlusLit "is".data (s.drop 4) with
    | some r => wsPlusGroupNoQ r
    | none => none
  else none

/-- Try `kw\s+([^\?]+)` (lines 843, 845, IGNORECASE) at this position. -/
def matchKwGroup (kw : String) (s : List Char) : Option (List Char) :=
  if ciStarts kw.data s then wsPlusGroupNoQ (s.drop kw.data.length) else none

/-- `re.search`: try the position matcher at every start position, leftmost
success wins. -/
def scanFirst {α : Type} (f : List Char → Option α) : List Char → Option α
  | [] => f []
  | c :: rest =>
    match f (c :: rest) with
    | some g => some g
    | none => scanFirst f rest

/-- The character class `[\d\+\-\*\/\^\(\)\.\s]` of line 847. -/
def isMathTok (c : Char) : Bool :=
  c.isDigit || ['+', '-', '*', '/', '^', '(', ')', '.'].contains c ||
    isPySpace c

/-- The regex `([\d\+\-\*\/\^\(\)\.\s]+)` (line 847): the group is the
maximal class run starting at the first class character. -/
def mathRun : List Char → Option (List Char)
  | [] => none
  | c :: rest =>
    if isMathTok c then some ((c :: rest).takeWhile isMathTok)
    else mathRun rest

/-- Length matched at this position by the cleanup alternation
`(what\s+is|calculate|solve)` (line 852, IGNORECASE), alternatives in
order. -/
def cleanMatchLen (s : List Char) : Option Nat :=
  if ciStarts "what".data s then
    let r := s.drop 4
    let w := r.takeWhile isPySpace
    if !w.isEmpty && ciStarts "is".data (r.drop w.length) then
      some (4 + w.length + 2)
    else none
  else if ciStarts "calculate".data s then some 9
  else if ciStarts "solve".data s then some 5
  else none

/-- Worker for `cleanSub`, structurally recursive on a fuel bound so that it
reduces definitionally; every step consumes at least one character, so
`fuel = s.length` never runs out. -/
def cleanSubAux : Nat → List Char → List Char
  | _, [] => []
  | 0, s => s
  | fuel + 1, c :: rest =>
    match cleanMatchLen (c :: rest) with
    | some n => cleanSubAux fuel (List.drop (n - 1) rest)
    | none => c :: cleanSubAux fuel rest

/-- `re.sub(r'(what\s+is|calculate|solve)', '', s, flags=IGNORECASE)`
(line 852). -/
def cleanSub (s : List Char) : List Char :=
  cleanSubAux s.length s

/-- The regex cascade of the math branch (lines 839-847): question-mark
clause, then `what is`, then `calculate`, then `solve`, then a raw
arithmetic-token run. -/
def mathMatchOf (s : List Char) : Option (List Char) :=
  match qmarkExtract s with
  | some g => some g
  | none =>
    match scanFirst matchWhatIs s with
    | some g => some g
    | none =>
      match scanFirst (matchKwGroup "calculate") s with
      | some g => some g
      | none =>
        match scanFirst (matchKwGroup "solve") s with
        | some g => some g
        | none => mathRun s

/-- `math_expr` after extraction and cleanup (lines 837-852): on a match the
group is cleaned (`re.sub` + `strip`), otherwise the raw user input is
kept. -/
def mathExprOf (userInput : String) : String :=
  match mathMatchOf userInput.data with
  | some g => String.mk (pyStrip (cleanSub g))
  | none => userInput

/-- The math branch body (lines 854-856): invoke `solve_math` only when the
expression is non-empty and contains a digit. -/
def mathInvocation (userInput : String) : Option ToolInvocation :=
  let e := mathExprOf userInput
  if e ≠ "" ∧ e.data.any Char.isDigit then some (.math e) else none

/-- Python `\w` (ASCII part): word characters for the fence language tag. -/
def isWordChar (c : Char) : Bool := c.isAlpha || c.isDigit || c == '_'

/-- Index of the first occurrence of `pat` in `s`, if any. -/
def findSubIdx (pat : List Char) : List Char → Option Nat
  | [] => if pat.isPrefixOf ([] : List Char) then some 0 else none
  | c :: rest =>
    if pat.isPrefixOf (c :: rest) then some 0
    else (findSubIdx pat rest).map (fun n => n + 1)

/-- Try the fenced-block regex ```` ```(\w+)?\n?(.*?)\n?``` ```` (line 861,
DOTALL) at this position: three backticks, a greedy optional word tag, an
optional newline, then the lazy content — which ends at the earliest later
occurrence of three backticks, with one directly preceding newline consumed
by the greedy `\n?`.  Returns (language tag, content). -/
def fenceAt (s : List Char) : Option (List Char × List Char) :=
  if ("```".data).isPrefixOf s then
    let r := s.drop 3
    let tag := r.takeWhile isWordChar
    let r2 := r.drop tag.length
    let r3 := match r2 with
      | '\n' :: t => t
      | _ => r2
    match findSubIdx "```".data r3 with
    | some q =>
      let content := r3.take q
      let content2 :=
        if content.getLast? == some '\n' then content.dropLast else content
      some (tag, content2)
    | none => none
  else none

/-- The fenced-block arm of the code branch (lines 861-866): a missing
language tag defaults to `'python'` (`group(1) or 'python'`), and the
content is stripped before execution. -/
def fencedInvocation (userInput : String) : Option ToolInvocation :=
  match scanFirst fenceAt userInput.data with
  | some (tag, content) =>
    let lang := if tag.isEmpty then "python" else String.mk tag
    some (.code lang (String.mk (pyStrip content)))
  | none => none

/-- `\s*(.+)`: a greedy whitespace run, backtracking so that the greedy
non-newline group `(.+)` is non-empty; the group runs to the end of the
line. -/
def starThenLine : List Char → Option (List Char)
  | [] => none
  | c :: rest =>
    if c == '\n' then starThenLine rest
    else if isPySpace c then
      match starThenLine rest with
      | some g => some g
      | none => some (c :: rest.takeWhile (fun x => x != '\n'))
    else some (c :: rest.takeWhile (fun x => x != '\n'))

/-- `(?:this|:)\s*(.+)`: the literal `this` (case-insensitive) or a colon,
then the rest of the line. -/
def thisColonThen (s : List Char) : Option (List Char) :=
  if ciStarts "this".data s then starThenLine (s.drop 4)
  else
    match s with
    | ':' :: rest => starThenLine rest
    | _ => none

/-- Try `(?:run|execute)\s+(?:this|:)\s*(.+)` (line 869, IGNORECASE) at this
position. -/
def runExecAt (s : List Char) : Option (List Char) :=
  if ciStarts "run".data s then
    let r := s.drop 3
    let w := r.takeWhile isPySpace
    if w.isEmpty then none else thisColonThen (r.drop w.length)
  else if ciStarts "execute".data s then
    let r := s.drop 7
    let w := r.takeWhile isPySpace
    if w.isEmpty then none else thisColonThen (r.drop w.length)
  else none

/-- Try the quoted-fragment regex `["\']([^"\']+)["\']` (lines 873, 890,
909) at this position: an opening quote of either kind, a non-empty run of
non-quote characters, then a closing quote of either kind. -/
def quoteAt (s : List Char) : Option (List Char) :=
  match s with
  | c :: rest =>
    if c == '"' || c == '\'' then
      let run := rest.takeWhile (fun x => x != '"' && x != '\'')
      if run.isEmpty then none
      else if (rest.drop run.length).isEmpty then none
      else some run
    else none
  | [] => none

/-- Leftmost quoted fragment in `s`. -/
def quoteExtract (s : List Char) : Option (List Char) := scanFirst quoteAt s

/-- Python `code.strip('\'"')` (line 878): remove leading and trailing
quote characters of either kind. -/
def stripQuoteChars (s : List Char) : List Char :=
  ((s.dropWhile (fun c => c == '\'' || c == '"')).reverse.dropWhile
    (fun c => c == '\'' || c == '"')).reverse

/-- The python cue words of the language sniff (line 883). -/
def pythonWords : List String := ["print", "def ", "import ", "for ", "while "]

/-- The `run this` / `execute this` arm of the code branch (lines 869-887):
extract the rest of the line, prefer a quoted fragment inside it (else strip
boundary quotes), then sniff the language: `javascript`/`js:` cues pick
javascript, otherwise python (the python word check reassigns the already
default `'python'`). -/
def runExecInvocation (userInput : String) : Option ToolInvocation :=
  match scanFirst runExecAt userInput.data with
  | some g =>
    let code0 := pyStrip g
    let extracted := match quoteExtract code0 with
      | some q => q
      | none => stripQuoteChars code0
    let codeLower := extracted.map Char.toLower
    let lang :=
      if hasSub "javascript".data codeLower || hasSub "js:".data codeLower
      then "javascript"
      else if pythonWords.any (fun w => hasSub w.data codeLower) then "python"
      else "python"
    some (.code lang (String.mk extracted))
  | none => none

/-- The quoted-fragment arm of the code branch (lines 889-894): any quoted
fragment in the user input is executed as python. -/
def quotedPythonInvocation (userInput : String) : Option ToolInvocation :=
  match quoteExtract userInput.data with
  | some q => some (.code "python" (String.mk q))
  | none => none

/-- The code branch body (lines 858-894): fenced block, else
`run/execute this` clause, else quoted fragment. -/
def codeInvocation (userInput : String) : Option ToolInvocation :=
  match fencedInvocation userInput with
  | some i => some i
  | none =>
    match runExecInvocation userInput with
    | some i => some i
    | none => quotedPythonInvocation userInput

/-- The recognised language names (line 900), in list order. -/
def languageNames : List String :=
  ["spanish", "french", "german", "italian", "portuguese", "chinese",
   "japanese", "russian", "arabic"]

/-- The translation branch body (lines 896-913): the first listed language
occurring in either lowercased text is the target; the payload is the first
quoted fragment of the user input; no quoted fragment means no
invocation. -/
def translateInvocation (aiResponse userInput : String) :
    Option ToolInvocation :=
  match languageNames.find? (fun l =>
      hasSub l.data (lcChars aiResponse) || hasSub l.data (lcChars userInput)) with
  | some l =>
    match quoteExtract userInput.data with
    | some t => some (.translate l (String.mk t))
    | none => none
  | none => none

/-- `Qwen3CLI.detect_and_execute_tools` (lines 779-913): the fixed-order
first-match branch chain `if search ... elif math ... elif code ...
elif translate`, each branch producing at most one tool invocation. -/
def detect_and_execute_tools (aiResponse userInput : String) :
    List ToolInvocation :=
  let rl := lcChars aiResponse
  let ul := lcChars userInput
  if searchPatterns rl || searchPatterns ul then
    match searchInvocation userInput with
    | some i => [i]
    | none => []
  else if mathPatterns rl || mathPatterns ul then
    match mathInvocation userInput with
    | some i => [i]
    | none => []
  else if codePatterns rl || codePatterns ul then
    match codeInvocation userInput with
    | some i => [i]
    | none => []
  else if translatePatterns rl || translatePatterns ul then
    match translateInvocation aiResponse userInput with
    | some i => [i]
    | none => []
  else []

/-! ### Claims C4 and C10 -/

theorem detect_search_branch (a u : String)
    (hs : (searchPatterns (lcChars a) || searchPatterns (lcChars u)) = true) :
    detect_and_execute_tools a u =
      match searchInvocation u with
      | some i => [i]
      | none => [] := by
  simp [detect_and_execute_tools, hs]

/-- C4 counterexample: the assistant text
`"let me search and let me execute"` contains both a search cue
(`let me search`) and a code-execution cue (`let me execute`), yet with user
input `"find"` the detector produces **no** invocation at all — not exactly
one — because the matched search branch strips the query to the empty string
(line 829) and `if query:` (line 830) then suppresses the call, while the
`elif` chain prevents every other group from firing. -/
theorem C4_counterexample :
    (searchPatterns (lcChars "let me search and let me execute") ||
      searchPatterns (lcChars "find")) = true ∧
    (codePatterns (lcChars "let me search and let me execute") ||
      codePatterns (lcChars "find")) = true ∧
    detect_and_execute_tools "let me search and let me execute" "find" = [] :=
  ⟨by decide, by decide, by decide⟩

/-- C4 (amended): whenever a search pattern matches the lowercased assistant
or user text (in particular when both a search cue and a code cue are
present), the detector produces **at most one** invocation, and any produced
invocation is the search invocation — the calculation, code and translation
groups are never evaluated, because the groups are checked in the fixed
order search, calculation, code, translation with first-match-wins.  (When
the extracted query is empty the search branch produces no invocation at
all, which is the one departure from "exactly one".) -/
theorem C4_amended (a u : String)
    (hs : (searchPatterns (lcChars a) || searchPatterns (lcChars u)) = true) :
    (detect_and_execute_tools a u = [] ∨
      ∃ q, detect_and_execute_tools a u = [ToolInvocation.search q]) ∧
    (detect_and_execute_tools a u).length ≤ 1 := by
  rw [detect_search_branch a u hs]
  unfold searchInvocation
  by_cases hq : searchQueryOf u = ""
  · simp [hq]
  · have hred : (match (if searchQueryOf u ≠ "" then
        some (ToolInvocation.search (searchQueryOf u)) else none) with
        | some i => [i]
        | none => ([] : List ToolInvocation)) =
          [ToolInvocation.search (searchQueryOf u)] := by
      simp [hq]
    rw [hred]
    exact ⟨Or.inr ⟨searchQueryOf u, rfl⟩, by simp⟩

/-- C4 witness: with assistant text containing both a search cue and a code
cue and a user input whose query survives extraction, the amended theorem
yields the single search invocation. -/
theorem C4_witness :
    (detect_and_execute_tools "let me search and also let me run the program"
        "tell me something nice" = [] ∨
      ∃ q, detect_and_execute_tools
          "let me search and also let me run the program"
          "tell me something nice" = [ToolInvocation.search q]) ∧
    (detect_and_execute_tools "let me search and also let me run the program"
        "tell me something nice").length ≤ 1 :=
  C4_amended "let me search and also let me run the program"
    "tell me something nice" (by decide)

/-- C10 (confirmed): when a search pattern matches but the extracted query is
empty after stripping the search-trigger words, the detector performs no
tool invocation at all: `if query:` suppresses the search call and the
`elif` chain keeps the calculation, code and translation groups from being
evaluated even if their cues are present. -/
theorem C10_empty_query (a u : String)
    (hs : (searchPatterns (lcChars a) || searchPatterns (lcChars u)) = true)
    (hq : searchQueryOf u = "") :
    detect_and_execute_tools a u = [] := by
  rw [detect_search_branch a u hs]
  unfold searchInvocation
  simp [hq]

/-- C10 witness: assistant text carrying search, calculation and code cues
together with the user input `"find about latest"`, whose query strips to
the empty string; no invocation is produced. -/
theorem C10_witness :
    (searchPatterns (lcChars "let me search, let me calculate, let me run") ||
      searchPatterns (lcChars "find about latest")) = true ∧
    searchQueryOf "find about latest" = "" ∧
    mathPatterns (lcChars "let me search, let me calculate, let me run") = true ∧
    codePatterns (lcChars "let me search, let me calculate, let me run") = true ∧
    detect_and_execute_tools "let me search, let me calculate, let me run"
      "find about latest" = [] :=
  ⟨by decide, by decide, by decide, by decide,
    C10_empty_query "let me search, let me calculate, let me run"
      "find about latest" (by decide) (by decide)⟩
